import Mathlib

/-!
Verification model of the arrow GC interoperability core (repository
per-gron/arrow). Shallow embedding of:

- src/handle.h            : the Handle reference wrapper and its hook calls
- src/local_stack.h       : the LocalStack shadow stack
- persistent_pool.h       : the refcounted PersistentPool root set
- storage_descriptor.h    : StorageDescriptor and its Slot type
- src/storage/member_handle_hooks.h and type_storage.h : the lazy,
  reentrant type-descriptor registry (ArwInternalGetStorageDescriptor)
- src/storage/newable.h   : the Newable allocation mixin

Machine pointers are modelled as natural numbers, heaps and caches as
association lists, and fallible operations (ARW_CHECK / ARW_ASSERT
failures) return Option / Except values whose none / error outcome stands
for the fatal halt. The body of arw::Check lives in checks.cc, which is
not among the sources; per the spec (section 7) a failed check halts the
process, so a failed check is modelled as the absence of a result value
(carrying, for Except, the state at the moment of the halt).
-/

namespace Arw

/-- Modelled from the spec: ARW_CHECK(condition) from checks.h calls
arw::Check when the condition is false; the body of arw::Check is in
checks.cc, which is not among the sources, and spec section 7 states that
every failed check halts the process ("detect programmer error as early
and loudly as possible, then halt"). arwCheck therefore reports whether
execution may continue, and callers map a false result to the absence of a
result value. -/
def arwCheck (cond : Prop) [Decidable cond] : Bool := decide cond

/-- ARW_ASSERT(condition) from checks.h is ARW_CHECK(condition) in
assertion-enabled (DEBUG) builds and a no-op otherwise; the descriptor
construction below is modelled with assertions enabled, which is the
behavior the spec describes for the internal consistency check. -/
def arwAssert (cond : Prop) [Decidable cond] : Bool := arwCheck cond

/-- HandleType from src/handle.h: the three reference disciplines. -/
inductive HandleType
  | VALUE
  | REFERENCE
  | WEAK
deriving DecidableEq, Repr

/-- One hook invocation performed by a Handle operation. The four hooks are
the four static methods of a Hooks class in src/handle.h. -/
inductive HookEvent
  | created
  | destroyed
  | read
  | write
deriving DecidableEq, Repr

/-- The read and write hooks of a Hooks class (src/handle.h). The read hook
receives a pointer to the stored reference, may update it, and returns a
reference; it is modelled as a function from the stored value to the pair
(updated stored value, returned value). The write hook receives a pointer to
the stored reference plus the incoming value and may store anything. -/
structure HandleHooks (σ : Type) where
  readFn : σ → σ × σ
  writeFn : σ → σ → σ

namespace Handle

/-- Handle default constructor: calls wasCreated, which invokes the created
hook once; the stored data is whatever default initialization left there. -/
def constructDefault {σ : Type} (initData : σ) : σ × List HookEvent :=
  (initData, [HookEvent.created])

/-- Handle copy constructor: initializes the new data member directly from
the data member of the other handle, then invokes the created hook once. -/
def constructCopy {σ : Type} (otherData : σ) : σ × List HookEvent :=
  (otherData, [HookEvent.created])

/-- Handle move constructor: moves the data member of the other handle
directly into the new handle, then invokes the created hook once. -/
def constructMove {σ : Type} (otherData : σ) : σ × List HookEvent :=
  (otherData, [HookEvent.created])

/-- Handle explicit constructor from argument_type (a storage value). -/
def constructFromValue {σ : Type} (v : σ) : σ × List HookEvent :=
  (v, [HookEvent.created])

/-- Handle explicit constructor from an rvalue storage value. -/
def constructFromStorageMove {σ : Type} (v : σ) : σ × List HookEvent :=
  (v, [HookEvent.created])

/-- Handle destructor: calls wasDestroyed, invoking the destroyed hook once. -/
def destruct : List HookEvent := [HookEvent.destroyed]

/-- The private Handle::write helper: value handles assign the raw data with
no hook call; reference and weak handles delegate to the write hook.
Returns the new stored data and the hook invocations performed. -/
def writeOp {σ : Type} (hk : HandleHooks σ) (t : HandleType) (d v : σ) :
    σ × List HookEvent :=
  match t with
  | HandleType.VALUE => (v, [])
  | _ => (hk.writeFn d v, [HookEvent.write])

/-- Handle copy assignment: calls write with the data of the other handle. -/
def assignCopy {σ : Type} (hk : HandleHooks σ) (t : HandleType) (d v : σ) :
    σ × List HookEvent :=
  writeOp hk t d v

/-- Handle move assignment: calls write with the moved data. -/
def assignMove {σ : Type} (hk : HandleHooks σ) (t : HandleType) (d v : σ) :
    σ × List HookEvent :=
  writeOp hk t d v

/-- Handle assignment from a raw storage value (argument_type overload,
which for reference disciplines is a raw pointer). -/
def assignRaw {σ : Type} (hk : HandleHooks σ) (t : HandleType) (d v : σ) :
    σ × List HookEvent :=
  writeOp hk t d v

/-- Handle::get. Value handles return the address of the stored data with no
hook call; reference and weak handles invoke the read hook once and return
its result. Returns (new stored data, returned value, hook invocations). -/
def get {σ : Type} (hk : HandleHooks σ) (t : HandleType) (d : σ) :
    σ × σ × List HookEvent :=
  match t with
  | HandleType.VALUE => (d, d, [])
  | _ =>
    let r := hk.readFn d
    (r.1, r.2, [HookEvent.read])

/-- Handle::operator->, which simply returns get(). -/
def operatorArrow {σ : Type} (hk : HandleHooks σ) (t : HandleType) (d : σ) :
    σ × σ × List HookEvent :=
  get hk t d

/-- Handle::operator*, which dereferences get(). -/
def operatorStar {σ : Type} (hk : HandleHooks σ) (t : HandleType) (d : σ) :
    σ × σ × List HookEvent :=
  get hk t d

/-- Handle::operator bool, statically restricted to WEAK handles; it
computes the double negation of get(). isNull models the nullptr test on
the pointer returned by the read hook. -/
def operatorBool {σ : Type} (hk : HandleHooks σ) (isNull : σ → Bool) (d : σ) :
    σ × Bool × List HookEvent :=
  let r := get hk HandleType.WEAK d
  (r.1, !(isNull r.2.1), r.2.2)

end Handle

/-- LocalStack from src/local_stack.h: the per-thread shadow stack of
(descriptor, data) root entries, backed by a vector. -/
structure LocalStack (δ α : Type) where
  vec : List (δ × α)
deriving DecidableEq, Repr

namespace LocalStack

/-- The default constructor builds an empty LocalStack. -/
def emptyStack {δ α : Type} : LocalStack δ α := ⟨[]⟩

/-- LocalStack::top returns the current size of the vector as an opaque ref. -/
def top {δ α : Type} (s : LocalStack δ α) : Nat := s.vec.length

/-- LocalStack::push appends one (descriptor, data) entry to the vector. -/
def push {δ α : Type} (s : LocalStack δ α) (v : δ × α) : LocalStack δ α :=
  ⟨s.vec ++ [v]⟩

/-- LocalStack::popTo: ARW_CHECK that the size is at least r, then resize to
r (keeping the first r entries). A failed check is the fatal halt, none. -/
def popTo {δ α : Type} (s : LocalStack δ α) (r : Nat) :
    Option (LocalStack δ α) :=
  if arwCheck (s.vec.length ≥ r) then some ⟨s.vec.take r⟩ else none

/-- LocalStack::clear erases all elements. -/
def clear {δ α : Type} (_s : LocalStack δ α) : LocalStack δ α := ⟨[]⟩

end LocalStack

/-- Association-list lookup keyed on the first component; returns the value
of the first matching entry. Used to model std::map lookups and, in the
registry model below, pointer-indexed heaps and per-type caches. -/
def findAssoc {κ α : Type} [DecidableEq κ] : List (κ × α) → κ → Option α
  | [], _ => none
  | (k, v) :: r, x => if k = x then some v else findAssoc r x

/-- Association-list update: replaces the value of the first entry whose key
matches; leaves the list unchanged when the key is absent. -/
def updAssoc {κ α : Type} [DecidableEq κ] :
    List (κ × α) → κ → α → List (κ × α)
  | [], _, _ => []
  | (k, v) :: r, x, w => if k = x then (k, w) :: r else (k, v) :: updAssoc r x w

/-- Association-list erasure of the first entry whose key matches. -/
def eraseAssoc {κ α : Type} [DecidableEq κ] :
    List (κ × α) → κ → List (κ × α)
  | [], _ => []
  | (k, v) :: r, x => if k = x then r else (k, v) :: eraseAssoc r x

/-- PersistentPool from persistent_pool.h: a map from raw identity (Data) to
(descriptor, refcount), the root set for persistent handles. -/
structure PersistentPool (δ ι : Type) where
  map : List (ι × δ × Nat)
deriving DecidableEq, Repr

namespace PersistentPool

/-- The default constructor builds an empty pool. -/
def emptyPool {δ ι : Type} : PersistentPool δ ι := ⟨[]⟩

/-- PersistentPool::empty. -/
def isEmpty {δ ι : Type} (p : PersistentPool δ ι) : Bool := p.map.isEmpty

/-- PersistentPool::add: inserts (data, (desc, 1)); when the identity is
already present, ARW_CHECK that the recorded descriptor equals the supplied
one and increment the refcount of the existing entry. A failed check is the
fatal halt, modelled as error carrying the pool state at the halt (the
failed std::map insert has not modified the map). -/
def add {δ ι : Type} [DecidableEq ι] [DecidableEq δ]
    (p : PersistentPool δ ι) (x : ι) (d : δ) :
    Except (PersistentPool δ ι) (PersistentPool δ ι) :=
  match findAssoc p.map x with
  | none => Except.ok ⟨(x, (d, 1)) :: p.map⟩
  | some (d0, c) =>
    if arwCheck (d0 = d) then Except.ok ⟨updAssoc p.map x (d0, c + 1)⟩
    else Except.error p

/-- PersistentPool::remove: ARW_CHECK that the identity is present (a failed
check is the fatal halt with the pool unmodified), then decrement the
refcount and erase the entry when it reaches zero. -/
def remove {δ ι : Type} [DecidableEq ι]
    (p : PersistentPool δ ι) (x : ι) :
    Except (PersistentPool δ ι) (PersistentPool δ ι) :=
  match findAssoc p.map x with
  | none => Except.error p
  | some (d, c) =>
    if c - 1 = 0 then Except.ok ⟨eraseAssoc p.map x⟩
    else Except.ok ⟨updAssoc p.map x (d, c - 1)⟩

end PersistentPool

/-- The descriptor argument of the Slot constructor in storage_descriptor.h,
as seen through the slot validity checks: either the address of the boxed
sentinel descriptor, or the address of an ordinary descriptor together with
the value of its hasArray flag (the only payload the constructor consults).
The boxed sentinel itself is constructed with hasArray false. -/
inductive DescArg
  | boxed
  | plain (hasArr : Bool)
deriving DecidableEq, Repr

/-- The hasArray() observation made through a DescArg pointer. -/
def DescArg.hasArrayOf : DescArg → Bool
  | DescArg.boxed => false
  | DescArg.plain b => b

/-- StorageDescriptor::Slot: descriptor pointer, discipline, byte offset. -/
structure SlotV where
  storageDescriptor : DescArg
  type : HandleType
  offset : Nat
deriving DecidableEq, Repr

/-- The Slot constructor from storage_descriptor.h. A NULL descriptor
argument is replaced by the address of the boxed sentinel. Then two
ARW_CHECKs run: a boxed slot must not be by value, and a by-value slot must
not reference a variable-sized descriptor. A failed check is the fatal
halt, none. -/
def SlotV.make (sd : Option DescArg) (t : HandleType) (off : Nat) :
    Option SlotV :=
  let d := sd.getD DescArg.boxed
  if arwCheck (d ≠ DescArg.boxed ∨ t ≠ HandleType.VALUE) then
    if arwCheck (t ≠ HandleType.VALUE ∨ d.hasArrayOf = false) then
      some ⟨d, t, off⟩
    else none
  else none

/-- StorageDescriptor as constructed by init: size with an empty array part,
the hasArray flag, the array Slot (ignored when hasArray is false) and the
fixed-offset slots, in order. -/
structure SDescV where
  sizeWithEmptyArray : Nat
  hasArray : Bool
  array : SlotV
  values : List SlotV
deriving DecidableEq, Repr

/-- StorageDescriptor::init, which placement-constructs the descriptor via
the private constructor. The constructor copies the slot range and then
runs ARW_ASSERT(sizeWithEmptyArray != 0 or (not hasArray and numValues ==
0)); with assertions enabled a failed assert is the fatal halt, none. -/
def SDescV.init (sizeWithEmptyArray : Nat) (hasArr : Bool)
    (arr : SlotV) (values : List SlotV) : Option SDescV :=
  if arwAssert (sizeWithEmptyArray ≠ 0
      ∨ (hasArr = false ∧ values.length = 0)) then
    some ⟨sizeWithEmptyArray, hasArr, arr, values⟩
  else none

/-- Newable::operator new from src/storage/newable.h: the argument sz is the
byte size requested by the new-expression, and the body returns
GCHooks::allocate(sizeof(ChildClass) * sz). The result records the pointer
returned by the hook together with the list of sizes passed to allocate. -/
def Newable.operatorNew (allocate : Nat → Nat)
    (sizeofChildClass sz : Nat) : Nat × List Nat :=
  (allocate (sizeofChildClass * sz), [sizeofChildClass * sz])

/-- A C++ new-expression for a single object of the child class invokes
operator new with sz equal to sizeof(ChildClass). -/
def Newable.newExpression (allocate : Nat → Nat)
    (sizeofChildClass : Nat) : Nat × List Nat :=
  Newable.operatorNew allocate sizeofChildClass sizeofChildClass

/-- Newable::operator delete: a no-op; the list of deallocation requests it
issues is empty. -/
def Newable.operatorDelete : List Nat := []

/-- A Slot as built by the type-descriptor registry, where descriptor
pointers are modelled as numeric pointer identities into the registry heap
(0 is reserved for the address of the boxed sentinel). -/
structure SlotR where
  sd : Nat
  htype : HandleType
  offset : Nat
deriving DecidableEq, Repr

/-- A StorageDescriptor record as produced by the registry. -/
structure SDescR where
  sizeWithEmptyArray : Nat
  hasArray : Bool
  array : SlotR
  values : List SlotR
deriving DecidableEq, Repr

/-- The pointer identity of the boxed sentinel descriptor. -/
def boxedPtr : Nat := 0

/-- Slot::empty, the invalid dummy slot used as the array argument of the
non-array ARW_DEFINE_STORAGE macros: Slot(NULL, HandleType::REFERENCE, 0),
whose NULL descriptor is replaced by the boxed sentinel. -/
def emptySlotR : SlotR := ⟨boxedPtr, HandleType.REFERENCE, 0⟩

/-- One declared member handle of a registered class, as reflected by
TypeStorage::slot: the type identity of the value_type of the member
handle, the handleType of the member handle, and its byte offset. -/
structure MemberDecl where
  vtype : Nat
  htype : HandleType
  offset : Nat
deriving DecidableEq, Repr

/-- The registration of one class, as supplied through the
ARW_DEFINE_STORAGE[_ARR]_[N] macros: sizeof(klass), the optional array
member (present exactly for the _ARR_ variants, which pass hasArray true),
and the declared member handles in order. -/
structure TypeDecl where
  size : Nat
  arrayMember : Option MemberDecl
  members : List MemberDecl
deriving DecidableEq, Repr

/-- The mutable state of the registry: for each type identity the cached
descriptor pointer (the function-local static unique_ptr of each
specialization of ArwInternalGetStorageDescriptor::get), the next fresh
pointer the allocator hands out, and the heap of descriptors that have been
fully initialized. A pointer cached but absent from the heap is allocated
yet uninitialized memory. -/
structure RegState where
  cache : List (Nat × Nat)
  nextPtr : Nat
  heap : List (Nat × SDescR)
deriving DecidableEq, Repr

/-- The registry state before any lookup: nothing cached, nothing
initialized, first allocation returns pointer 1 (0 is the boxed sentinel). -/
def regInit : RegState := ⟨[], 1, []⟩

/-- The hasArray() observation made through a descriptor pointer: false for
the boxed sentinel, the stored flag for an initialized descriptor, and none
(an unusable read of uninitialized memory) for a pointer that was allocated
but whose descriptor has not been initialized yet. -/
def hasArrayAt (s : RegState) (p : Nat) : Option Bool :=
  if p = boxedPtr then some false
  else (findAssoc s.heap p).map SDescR.hasArray

/-- The Slot constructor as invoked by slot building inside the registry,
with the same two ARW_CHECKs as SlotV.make; the hasArray observation of the
second check is resolved against the registry state. The descriptor pointer
handed in by TypeStorage::slot comes from a get() call and is never NULL. -/
def mkSlotR (s : RegState) (sdp : Nat) (t : HandleType) (off : Nat) :
    Option SlotR :=
  if arwCheck (sdp ≠ boxedPtr ∨ t ≠ HandleType.VALUE) then
    if t = HandleType.VALUE then
      match hasArrayAt s sdp with
      | some b => if arwCheck (b = false) then some ⟨sdp, t, off⟩ else none
      | none => none
    else some ⟨sdp, t, off⟩
  else none

/-- Builds the Slot list for the declared members, left to right, calling
the supplied descriptor lookup (TypeStorage::slot calls
ArwInternalGetStorageDescriptor::get for the value_type of each member)
and threading the registry state through. -/
def buildSlots (getD : Nat → RegState → Option (Nat × RegState)) :
    List MemberDecl → RegState → Option (List SlotR × RegState)
  | [], s => some ([], s)
  | m :: ms, s =>
    match getD m.vtype s with
    | none => none
    | some (q, s1) =>
      match mkSlotR s1 q m.htype m.offset with
      | none => none
      | some sl =>
        match buildSlots getD ms s1 with
        | none => none
        | some (rest, s2) => some (sl :: rest, s2)

/-- The allocate-and-cache-first step of the registry: hand out the next
fresh pointer for the raw memory of the descriptor of type t and record it
in the cache before any initialization happens. -/
def regAlloc (t : Nat) (s : RegState) : RegState :=
  ⟨(t, s.nextPtr) :: s.cache, s.nextPtr + 1, s.heap⟩

/-- Evaluates the array argument of the generated init call: Slot::empty
for the non-array macros, or an arraySlot built from a descriptor lookup
for the _ARR_ macros. -/
def buildArraySlot (getD : Nat → RegState → Option (Nat × RegState)) :
    Option MemberDecl → RegState → Option (SlotR × RegState)
  | none, s => some (emptySlotR, s)
  | some m, s =>
    match getD m.vtype s with
    | none => none
    | some (q, s1) =>
      match mkSlotR s1 q m.htype m.offset with
      | none => none
      | some sl => some (sl, s1)

/-- ArwInternalGetStorageDescriptor::get as generated by
ARW_DEFINE_STORAGE_BEGIN / ARW_DEFINE_STORAGE_END: when the function-local
static pointer is already set, return it unchanged; otherwise allocate raw
memory and cache the still-uninitialized pointer first (regAlloc), then
evaluate the array slot argument and the member slot expressions (which
may reenter the registry), and finally run StorageDescriptor::init, whose
constructor assert is the final conditional. The reg argument maps each
type identity to its registration; fuel bounds the recursion depth of the
shallow embedding, and a none result means the fuel ran out or a check
failed. -/
def regGet (reg : Nat → TypeDecl) : Nat → Nat → RegState → Option (Nat × RegState)
  | 0, _, _ => none
  | fuel + 1, t, s =>
    match findAssoc s.cache t with
    | some p => some (p, s)
    | none =>
      match buildArraySlot (regGet reg fuel) (reg t).arrayMember (regAlloc t s) with
      | none => none
      | some (arrSlot, s2) =>
        match buildSlots (regGet reg fuel) (reg t).members s2 with
        | none => none
        | some (slots, s3) =>
          if arwAssert ((reg t).size ≠ 0
              ∨ ((reg t).arrayMember = none ∧ slots.length = 0))
          then
            some (s.nextPtr,
              ⟨s3.cache, s3.nextPtr,
               (s.nextPtr,
                ⟨(reg t).size, (reg t).arrayMember.isSome, arrSlot, slots⟩)
                 :: s3.heap⟩)
          else none

/-- Cache preservation between two registry states: every cached descriptor
pointer of the first state is still cached, unchanged, in the second. -/
def CachePres (s s1 : RegState) : Prop :=
  ∀ u q, findAssoc s.cache u = some q → findAssoc s1.cache u = some q

/-- One observable registry transition: some lookup, of any type and with
any fuel, succeeded and moved the state. -/
def RegStep (reg : Nat → TypeDecl) (s s1 : RegState) : Prop :=
  ∃ u fuel q, regGet reg fuel u s = some (q, s1)

/-- Reachability by any finite sequence of successful registry lookups. -/
def RegReach (reg : Nat → TypeDecl) : RegState → RegState → Prop :=
  Relation.ReflTransGen (RegStep reg)

/-- The descriptor the registry builds for a self-referential registration
with a single strong-reference member at the given offset: its lone slot
points back at pointer 1, the descriptor of the type itself. -/
def selfRefDesc (off sz : Nat) : SDescR :=
  ⟨sz, false, emptySlotR, [⟨1, HandleType.REFERENCE, off⟩]⟩

/-- The registry state after resolving such a self-referential type from
the initial state. -/
def selfRefState (t off sz : Nat) : RegState :=
  ⟨[(t, 1)], 2, [(1, selfRefDesc off sz)]⟩

/-- Concrete hook set used to instantiate the Handle theorems: the read
hook returns the stored reference unchanged and the write hook stores the
incoming value, like the documentation example hooks in src/handle.h. -/
def hkW : HandleHooks Nat := ⟨fun d => (d, d), fun _ v => v⟩

/-- Concrete registry fixture: every type identity registered with
sizeof 4 and no member handles (the ARW_DEFINE_STORAGE_0 shape). -/
def regW0 : Nat → TypeDecl := fun _ => ⟨4, none, []⟩

/-- Registry state after the first regW0 lookup of type 0. -/
def regW0After : RegState :=
  ⟨[(0, 1)], 2, [(1, ⟨4, false, emptySlotR, []⟩)]⟩

/-- Concrete registry fixture for the self-reference scenario: every type
identity registered with sizeof 8 and a single strong-reference member of
type 0 at offset 16 (the ARW_DEFINE_STORAGE_1 shape, member referring back
to the registered class itself). -/
def regWS : Nat → TypeDecl :=
  fun _ => ⟨8, none, [⟨0, HandleType.REFERENCE, 16⟩]⟩

end Arw

namespace Arw

/-- Helper: a check passes exactly when its condition holds. -/
@[simp] theorem arwCheck_eq_true (cond : Prop) [Decidable cond] :
    arwCheck cond = true ↔ cond := by
  simp [arwCheck]

/-- Helper: an enabled assert passes exactly when its condition holds. -/
@[simp] theorem arwAssert_eq_true (cond : Prop) [Decidable cond] :
    arwAssert cond = true ↔ cond := by
  simp [arwAssert, arwCheck]

/-- C10: constructing a Handle by any construction form stores the source
storage directly into the new handle and invokes neither the read hook nor
the write hook; only the created hook runs during construction. In
particular copy construction duplicates the stored raw pointer without
passing it through any barrier. -/
theorem handle_construction_stores_directly (σ : Type) (d : σ) :
    Handle.constructDefault d = (d, [HookEvent.created])
    ∧ Handle.constructCopy d = (d, [HookEvent.created])
    ∧ Handle.constructMove d = (d, [HookEvent.created])
    ∧ Handle.constructFromValue d = (d, [HookEvent.created])
    ∧ Handle.constructFromStorageMove d = (d, [HookEvent.created]) :=
  ⟨rfl, rfl, rfl, rfl, rfl⟩

/-- C1: for reference-discipline handles every read (get, arrow, star, weak
liveness test) invokes the read hook exactly once and every assignment
invokes the write hook exactly once; VALUE handles never invoke read or
write; every construction invokes the created hook exactly once, every
destruction the destroyed hook exactly once, and assignment invokes
neither created nor destroyed. -/
theorem handle_hook_call_counts (σ : Type) (hk : HandleHooks σ)
    (isNull : σ → Bool) (t : HandleType) (d v : σ) :
    (t ≠ HandleType.VALUE →
      ((Handle.get hk t d).2.2 = [HookEvent.read]
       ∧ (Handle.operatorArrow hk t d).2.2 = [HookEvent.read]
       ∧ (Handle.operatorStar hk t d).2.2 = [HookEvent.read]
       ∧ (Handle.operatorBool hk isNull d).2.2 = [HookEvent.read]
       ∧ (Handle.assignCopy hk t d v).2 = [HookEvent.write]
       ∧ (Handle.assignMove hk t d v).2 = [HookEvent.write]
       ∧ (Handle.assignRaw hk t d v).2 = [HookEvent.write]))
    ∧ ((Handle.get hk HandleType.VALUE d).2.2 = []
       ∧ (Handle.operatorArrow hk HandleType.VALUE d).2.2 = []
       ∧ (Handle.operatorStar hk HandleType.VALUE d).2.2 = []
       ∧ (Handle.assignCopy hk HandleType.VALUE d v).2 = []
       ∧ (Handle.assignMove hk HandleType.VALUE d v).2 = []
       ∧ (Handle.assignRaw hk HandleType.VALUE d v).2 = [])
    ∧ ((Handle.constructDefault d).2.count HookEvent.created = 1
       ∧ (Handle.constructCopy d).2.count HookEvent.created = 1
       ∧ (Handle.constructMove d).2.count HookEvent.created = 1
       ∧ (Handle.constructFromValue d).2.count HookEvent.created = 1
       ∧ (Handle.constructFromStorageMove d).2.count HookEvent.created = 1
       ∧ Handle.destruct.count HookEvent.destroyed = 1)
    ∧ ((Handle.assignCopy hk t d v).2.count HookEvent.created = 0
       ∧ (Handle.assignCopy hk t d v).2.count HookEvent.destroyed = 0
       ∧ (Handle.assignMove hk t d v).2.count HookEvent.created = 0
       ∧ (Handle.assignMove hk t d v).2.count HookEvent.destroyed = 0
       ∧ (Handle.assignRaw hk t d v).2.count HookEvent.created = 0
       ∧ (Handle.assignRaw hk t d v).2.count HookEvent.destroyed = 0) := by
  refine ⟨?_, ?_, ?_, ?_⟩
  · intro h
    cases t with
    | VALUE => exact absurd rfl h
    | REFERENCE =>
      exact ⟨rfl, rfl, rfl, rfl, rfl, rfl, rfl⟩
    | WEAK =>
      exact ⟨rfl, rfl, rfl, rfl, rfl, rfl, rfl⟩
  · exact ⟨rfl, rfl, rfl, rfl, rfl, rfl⟩
  · exact ⟨rfl, rfl, rfl, rfl, rfl, rfl⟩
  · cases t <;> exact ⟨rfl, rfl, rfl, rfl, rfl, rfl⟩

/-- Witness for C1 at concrete inputs: a strong-reference handle over Nat
storage with identity-style hooks. -/
theorem handle_hook_call_counts_witness :
    (Handle.get hkW HandleType.REFERENCE 0).2.2 = [HookEvent.read]
    ∧ (Handle.operatorArrow hkW HandleType.REFERENCE 0).2.2 = [HookEvent.read]
    ∧ (Handle.operatorStar hkW HandleType.REFERENCE 0).2.2 = [HookEvent.read]
    ∧ (Handle.operatorBool hkW (fun _ => false) 0).2.2 = [HookEvent.read]
    ∧ (Handle.assignCopy hkW HandleType.REFERENCE 0 1).2 = [HookEvent.write]
    ∧ (Handle.assignMove hkW HandleType.REFERENCE 0 1).2 = [HookEvent.write]
    ∧ (Handle.assignRaw hkW HandleType.REFERENCE 0 1).2 = [HookEvent.write] :=
  (handle_hook_call_counts Nat hkW (fun _ => false)
    HandleType.REFERENCE 0 1).1 (by decide)

/-- C4: popTo halts with a fatal checked error exactly when the ref exceeds
the number of entries; otherwise it leaves precisely the first r pushed
entries, unchanged and in push order; and the scenario push a, take top,
push b, popTo leaves only a. -/
theorem local_stack_popTo_spec (δ α : Type) (s : LocalStack δ α) (r : Nat) :
    (LocalStack.popTo s r = none ↔ LocalStack.top s < r)
    ∧ (∀ t, LocalStack.popTo s r = some t →
        t.vec.length = r ∧ ∀ i, i < r → t.vec[i]? = s.vec[i]?)
    ∧ (∀ a b : δ × α,
        LocalStack.popTo
          (LocalStack.push (LocalStack.push LocalStack.emptyStack a) b)
          (LocalStack.top (LocalStack.push LocalStack.emptyStack a))
        = some (LocalStack.push LocalStack.emptyStack a)) := by
  refine ⟨?_, ?_, fun a b => rfl⟩
  · unfold LocalStack.popTo LocalStack.top
    split
    · rename_i hle
      simp only [arwCheck_eq_true] at hle
      exact iff_of_false (by simp) (by omega)
    · rename_i hgt
      simp only [arwCheck_eq_true] at hgt
      exact iff_of_true rfl (by omega)
  · intro t h
    simp only [LocalStack.popTo] at h
    split at h
    · cases h
      rename_i hle
      simp only [arwCheck_eq_true] at hle
      constructor
      · simpa [List.length_take] using Nat.min_eq_left hle
      · intro i hi
        exact List.getElem?_take_of_lt hi
    · cases h

/-- Witness for C4 at concrete inputs: a two-entry Nat stack popped to 1. -/
theorem local_stack_popTo_spec_witness :
    (⟨[((1 : Nat), (2 : Nat))]⟩ : LocalStack Nat Nat).vec.length = 1 :=
  ((local_stack_popTo_spec Nat Nat ⟨[(1, 2), (3, 4)]⟩ 1).2.1
    ⟨[(1, 2)]⟩ (by decide)).1

/-- C7: every successfully constructed Slot satisfies the two invariants
(a boxed slot is not VALUE, a VALUE slot references a descriptor without a
trailing array, null descriptor arguments becoming the boxed sentinel),
and attempting to construct a violating Slot halts with a fatal check. -/
theorem slot_validity_invariants (sd : Option DescArg) (t : HandleType)
    (off : Nat) :
    (∀ sl, SlotV.make sd t off = some sl →
      ((sl.storageDescriptor = DescArg.boxed → sl.type ≠ HandleType.VALUE)
       ∧ (sl.type = HandleType.VALUE →
          sl.storageDescriptor.hasArrayOf = false)))
    ∧ ((sd.getD DescArg.boxed = DescArg.boxed ∧ t = HandleType.VALUE)
        ∨ (t = HandleType.VALUE
           ∧ (sd.getD DescArg.boxed).hasArrayOf = true) →
       SlotV.make sd t off = none)
    ∧ SlotV.make none t off = SlotV.make (some DescArg.boxed) t off := by
  refine ⟨?_, ?_, rfl⟩
  · intro sl h
    simp only [SlotV.make] at h
    split at h
    · split at h
      · cases h
        rename_i hc1 hc2
        simp only [arwCheck_eq_true] at hc1 hc2
        constructor
        · intro hb
          rcases hc1 with h1 | h1
          · exact absurd hb h1
          · exact h1
        · intro hv
          rcases hc2 with h2 | h2
          · exact absurd hv h2
          · exact h2
      · cases h
    · cases h
  · intro hviol
    simp only [SlotV.make]
    rcases hviol with ⟨hb, hv⟩ | ⟨hv, hA⟩
    · simp [hb, hv]
    · by_cases hb : sd.getD DescArg.boxed = DescArg.boxed
      · simp [hb, hv]
      · simp [hb, hv, hA]

/-- Witness for C7 at concrete inputs: a by-value slot over a fixed-size
descriptor satisfies both invariants, and constructing a by-value boxed
slot is fatal. -/
theorem slot_validity_invariants_witness :
    ((⟨DescArg.plain false, HandleType.VALUE, 8⟩ : SlotV).storageDescriptor
        = DescArg.boxed → (⟨DescArg.plain false, HandleType.VALUE, 8⟩ :
          SlotV).type ≠ HandleType.VALUE)
    ∧ ((⟨DescArg.plain false, HandleType.VALUE, 8⟩ : SlotV).type
        = HandleType.VALUE → (⟨DescArg.plain false, HandleType.VALUE, 8⟩ :
          SlotV).storageDescriptor.hasArrayOf = false) :=
  (slot_validity_invariants (some (DescArg.plain false))
    HandleType.VALUE 8).1 ⟨DescArg.plain false, HandleType.VALUE, 8⟩
    (by decide)

/-- C8: StorageDescriptor::init is fatal on hasArray false, zero size and a
non-empty slot list, and every successfully constructed descriptor has a
nonzero size unless it has neither array nor fixed slots. -/
theorem storage_descriptor_init_size (sz : Nat) (ha : Bool) (arr : SlotV)
    (vs : List SlotV) :
    (vs ≠ [] → SDescV.init 0 false arr vs = none)
    ∧ (∀ d, SDescV.init sz ha arr vs = some d →
        d.sizeWithEmptyArray ≠ 0 ∨ (d.hasArray = false ∧ d.values = [])) := by
  constructor
  · intro hne
    simp [SDescV.init, List.length_eq_zero, hne]
  · intro d h
    simp only [SDescV.init] at h
    split at h
    · cases h
      rename_i hc
      simp only [arwAssert_eq_true] at hc
      rcases hc with hsz | ⟨hha, hlen⟩
      · exact Or.inl hsz
      · exact Or.inr ⟨hha, List.length_eq_zero.mp hlen⟩
    · cases h

/-- Witness for C8 at concrete inputs: init with zero size, no array and
one slot is fatal. -/
theorem storage_descriptor_init_size_witness :
    SDescV.init 0 false ⟨DescArg.boxed, HandleType.REFERENCE, 0⟩
      [⟨DescArg.boxed, HandleType.REFERENCE, 0⟩] = none :=
  (storage_descriptor_init_size 0 false
    ⟨DescArg.boxed, HandleType.REFERENCE, 0⟩
    [⟨DescArg.boxed, HandleType.REFERENCE, 0⟩]).1 (by decide)

/-- Helper: updating an association list never changes its length, so an
in-place refcount update never duplicates an entry. -/
theorem updAssoc_length {κ α : Type} [DecidableEq κ]
    (l : List (κ × α)) (x : κ) (v : α) :
    (updAssoc l x v).length = l.length := by
  induction l with
  | nil => rfl
  | cons e r ih =>
    obtain ⟨k, w⟩ := e
    simp only [updAssoc]
    split
    · rfl
    · simpa using ih

/-- Helper: updating the entry of a present key makes lookup return the
new value. -/
theorem findAssoc_updAssoc_self {κ α : Type} [DecidableEq κ]
    (l : List (κ × α)) (x : κ) (v w : α) (h : findAssoc l x = some w) :
    findAssoc (updAssoc l x v) x = some v := by
  induction l with
  | nil => cases h
  | cons e r ih =>
    obtain ⟨k, u⟩ := e
    simp only [findAssoc, updAssoc] at h ⊢
    split at h
    · rename_i hk
      simp only [updAssoc, if_pos hk, findAssoc, if_pos hk]
    · rename_i hk
      simp only [updAssoc, if_neg hk, findAssoc, if_neg hk]
      exact ih h

/-- Helper: lookup of an absent key returns none. -/
theorem findAssoc_eq_none_of_not_mem {κ α : Type} [DecidableEq κ]
    (l : List (κ × α)) (x : κ) (h : x ∉ l.map Prod.fst) :
    findAssoc l x = none := by
  induction l with
  | nil => rfl
  | cons e r ih =>
    obtain ⟨k, u⟩ := e
    simp only [List.map_cons, List.mem_cons] at h
    push_neg at h
    simp only [findAssoc, if_neg (fun hk : k = x => h.1 hk.symm)]
    exact ih h.2

/-- Helper: when the keys are pairwise distinct (as in a std::map), erasing
the entry of a key makes lookup of that key return none. -/
theorem findAssoc_eraseAssoc_self {κ α : Type} [DecidableEq κ]
    (l : List (κ × α)) (x : κ) (h : (l.map Prod.fst).Nodup) :
    findAssoc (eraseAssoc l x) x = none := by
  induction l with
  | nil => rfl
  | cons e r ih =>
    obtain ⟨k, u⟩ := e
    simp only [List.map_cons, List.nodup_cons] at h
    simp only [eraseAssoc]
    split
    · rename_i hk
      exact findAssoc_eq_none_of_not_mem r x (hk ▸ h.1)
    · rename_i hk
      simp only [findAssoc, if_neg hk]
      exact ih h.2

/-- C5: add inserts an absent identity with refcount 1 and increments the
refcount of a present identity with an equal descriptor without
duplicating the entry; remove decrements and erases exactly at zero; the
scenario add, add, remove leaves the pool non-empty with the identity
present once more, and a further remove empties it. -/
theorem persistent_pool_refcounting (δ ι : Type) [DecidableEq ι]
    [DecidableEq δ] (p : PersistentPool δ ι) (x : ι) (d : δ) :
    (findAssoc p.map x = none →
      PersistentPool.add p x d = Except.ok ⟨(x, (d, 1)) :: p.map⟩
      ∧ findAssoc ((x, (d, 1)) :: p.map) x = some (d, 1))
    ∧ (∀ c, findAssoc p.map x = some (d, c) →
        ∃ q, PersistentPool.add p x d = Except.ok q
          ∧ findAssoc q.map x = some (d, c + 1)
          ∧ q.map.length = p.map.length)
    ∧ (∀ d0 c, (p.map.map Prod.fst).Nodup →
        findAssoc p.map x = some (d0, c + 1) →
        ∃ q, PersistentPool.remove p x = Except.ok q
          ∧ findAssoc q.map x = (if c = 0 then none else some (d0, c)))
    ∧ (PersistentPool.add (@PersistentPool.emptyPool δ ι) x d
         = Except.ok ⟨[(x, (d, 1))]⟩
       ∧ PersistentPool.add ⟨[(x, (d, 1))]⟩ x d = Except.ok ⟨[(x, (d, 2))]⟩
       ∧ PersistentPool.remove (⟨[(x, (d, 2))]⟩ : PersistentPool δ ι) x
         = Except.ok ⟨[(x, (d, 1))]⟩
       ∧ (⟨[(x, (d, 1))]⟩ : PersistentPool δ ι).isEmpty = false
       ∧ PersistentPool.remove (⟨[(x, (d, 1))]⟩ : PersistentPool δ ι) x
         = Except.ok ⟨[]⟩
       ∧ (@PersistentPool.emptyPool δ ι).isEmpty = true) := by
  refine ⟨?_, ?_, ?_, ?_⟩
  · intro h
    constructor
    · simp [PersistentPool.add, h]
    · simp [findAssoc]
  · intro c h
    refine ⟨⟨updAssoc p.map x (d, c + 1)⟩, ?_, ?_, ?_⟩
    · simp [PersistentPool.add, h]
    · exact findAssoc_updAssoc_self p.map x (d, c + 1) (d, c) h
    · exact updAssoc_length p.map x (d, c + 1)
  · intro d0 c hnd h
    cases c with
    | zero =>
      refine ⟨⟨eraseAssoc p.map x⟩, ?_, ?_⟩
      · simp [PersistentPool.remove, h]
      · simpa using findAssoc_eraseAssoc_self p.map x hnd
    | succ c0 =>
      refine ⟨⟨updAssoc p.map x (d0, c0 + 1)⟩, ?_, ?_⟩
      · simp [PersistentPool.remove, h]
      · simpa using findAssoc_updAssoc_self p.map x (d0, c0 + 1) (d0, c0 + 2) h
  · refine ⟨?_, ?_, ?_, ?_, ?_, ?_⟩
    · simp [PersistentPool.add, PersistentPool.emptyPool, findAssoc]
    · simp [PersistentPool.add, findAssoc, updAssoc]
    · simp [PersistentPool.remove, findAssoc, updAssoc]
    · simp [PersistentPool.isEmpty]
    · simp [PersistentPool.remove, findAssoc, eraseAssoc]
    · simp [PersistentPool.isEmpty, PersistentPool.emptyPool]

/-- Witness for C5 at concrete inputs: adding identity 5 with descriptor 7
to the empty Nat pool. -/
theorem persistent_pool_refcounting_witness :
    PersistentPool.add (@PersistentPool.emptyPool Nat Nat) 5 7
      = Except.ok ⟨[(5, (7, 1))]⟩
    ∧ findAssoc [(5, ((7 : Nat), 1))] 5 = some (7, 1) :=
  (persistent_pool_refcounting Nat Nat ⟨[]⟩ 5 7).1 (by decide)

/-- C6: adding a present identity with a differing descriptor is a fatal
check with the pool unchanged, and removing an absent identity is a fatal
check with the pool unchanged. -/
theorem persistent_pool_fatal_checks (δ ι : Type) [DecidableEq ι]
    [DecidableEq δ] (p : PersistentPool δ ι) (x : ι) (d1 d2 : δ)
    (c : Nat) :
    (findAssoc p.map x = some (d1, c) → d1 ≠ d2 →
      PersistentPool.add p x d2 = Except.error p)
    ∧ (findAssoc p.map x = none →
      PersistentPool.remove p x = Except.error p) := by
  constructor
  · intro h hne
    simp [PersistentPool.add, h, hne]
  · intro h
    simp [PersistentPool.remove, h]

/-- Witness for C6 at concrete inputs: descriptor clash on identity 0 and
removal from the empty pool. -/
theorem persistent_pool_fatal_checks_witness :
    PersistentPool.add (⟨[(0, (5, 1))]⟩ : PersistentPool Nat Nat) 0 6
      = Except.error ⟨[(0, (5, 1))]⟩
    ∧ PersistentPool.remove (@PersistentPool.emptyPool Nat Nat) 0
      = Except.error ⟨[]⟩ :=
  ⟨(persistent_pool_fatal_checks Nat Nat ⟨[(0, (5, 1))]⟩ 0 5 6 1).1
      (by decide) (by decide),
   (persistent_pool_fatal_checks Nat Nat ⟨[]⟩ 0 5 6 1).2 (by decide)⟩

/-- Helper: extending a cache with a binding for a key that was absent
preserves every existing binding. -/
theorem findAssoc_cons_pres {κ α : Type} [DecidableEq κ]
    (c : List (κ × α)) (t : κ) (p : α) (hc : findAssoc c t = none) :
    ∀ u q, findAssoc c u = some q → findAssoc ((t, p) :: c) u = some q := by
  intro u q hq
  simp only [findAssoc]
  split
  · rename_i ht
    rw [ht] at hc
    rw [hc] at hq
    cases hq
  · exact hq

/-- Helper: slot building preserves cached descriptor pointers whenever the
underlying descriptor lookup does. -/
theorem buildSlots_cachePres
    (getD : Nat → RegState → Option (Nat × RegState))
    (hmono : ∀ v s r s1, getD v s = some (r, s1) → CachePres s s1) :
    ∀ ms s out s1, buildSlots getD ms s = some (out, s1) → CachePres s s1 := by
  intro ms
  induction ms with
  | nil =>
    intro s out s1 h
    cases h
    exact fun u q hq => hq
  | cons m rest ih =>
    intro s out s1 h
    rw [buildSlots] at h
    split at h
    · cases h
    · rename_i r s2 hg
      split at h
      · cases h
      · rename_i sl hsl
        split at h
        · cases h
        · rename_i rest2 s3 hb
          cases h
          exact fun u q hq => ih s2 _ _ hb u q (hmono _ _ _ _ hg u q hq)

/-- Helper: array slot evaluation preserves cached descriptor pointers
whenever the underlying descriptor lookup does. -/
theorem buildArraySlot_cachePres
    (getD : Nat → RegState → Option (Nat × RegState))
    (hmono : ∀ v s r s1, getD v s = some (r, s1) → CachePres s s1) :
    ∀ am s out s1, buildArraySlot getD am s = some (out, s1) →
      CachePres s s1 := by
  intro am s out s1 h
  rw [buildArraySlot.eq_def] at h
  split at h
  · cases h
    exact fun u q hq => hq
  · rename_i m
    split at h
    · cases h
    · rename_i r s2 hg
      split at h
      · cases h
      · rename_i sl hsl
        cases h
        exact hmono _ _ _ _ hg

/-- Helper: a successful registry lookup preserves every cached descriptor
pointer and leaves its own result cached. This is the cache-before-init
discipline of ArwInternalGetStorageDescriptor::get: the function-local
static pointer is assigned exactly once, before any reentrant lookup runs. -/
theorem regGet_cachePres (reg : Nat → TypeDecl) :
    ∀ fuel t s p s1, regGet reg fuel t s = some (p, s1) →
      CachePres s s1 ∧ findAssoc s1.cache t = some p := by
  intro fuel
  induction fuel with
  | zero => intro t s p s1 h; cases h
  | succ f ih =>
    intro t s p s1 h
    rw [regGet] at h
    split at h
    · rename_i p0 hc
      cases h
      exact ⟨fun u q hq => hq, hc⟩
    · rename_i hc
      have hpres1 : CachePres s (regAlloc t s) :=
        findAssoc_cons_pres s.cache t s.nextPtr hc
      have hself1 : findAssoc (regAlloc t s).cache t = some s.nextPtr := by
        simp [regAlloc, findAssoc]
      have hmono : ∀ v sv r sv1, regGet reg f v sv = some (r, sv1) →
          CachePres sv sv1 :=
        fun v sv r sv1 hg => (ih v sv r sv1 hg).1
      split at h
      · cases h
      · rename_i arrSlot s2 harr
        split at h
        · cases h
        · rename_i slots s3 hb
          split at h
          · cases h
            have hpres2 : CachePres (regAlloc t s) s2 :=
              buildArraySlot_cachePres (regGet reg f) hmono _ _ _ _ harr
            have hpres3 : CachePres s2 s3 :=
              buildSlots_cachePres (regGet reg f) hmono _ _ _ _ hb
            refine ⟨fun u q hq => hpres3 u q (hpres2 u q (hpres1 u q hq)), ?_⟩
            exact hpres3 t s.nextPtr (hpres2 t s.nextPtr hself1)
          · cases h

/-- Helper: a lookup whose type already has a cached descriptor pointer
returns that pointer immediately and does not touch the state. -/
theorem regGet_cache_hit (reg : Nat → TypeDecl) (f t : Nat) (s : RegState)
    (p : Nat) (h : findAssoc s.cache t = some p) :
    regGet reg (f + 1) t s = some (p, s) := by
  rw [regGet, h]

/-- Helper: any finite sequence of successful registry lookups preserves
every cached descriptor pointer. -/
theorem regReach_cachePres (reg : Nat → TypeDecl) (s s1 : RegState)
    (h : RegReach reg s s1) : CachePres s s1 := by
  induction h with
  | refl => exact fun u q hq => hq
  | tail hab hstep ih =>
    obtain ⟨u0, f0, q0, hg⟩ := hstep
    exact fun u q hq => (regGet_cachePres reg f0 u0 _ q0 _ hg).1 u q (ih u q hq)

/-- C3: once a descriptor lookup for a type has succeeded, every later
lookup for that type, after any interleaved successful lookups of other
types, returns the identical pointer and leaves the registry state
untouched, so the backing StorageDescriptor is allocated at most once per
type. -/
theorem registry_descriptor_singleton (reg : Nat → TypeDecl) (fuel t : Nat)
    (s s1 s2 : RegState) (p : Nat)
    (h : regGet reg fuel t s = some (p, s1))
    (hreach : RegReach reg s1 s2) :
    ∀ k, regGet reg (k + 1) t s2 = some (p, s2) := by
  intro k
  exact regGet_cache_hit reg k t s2 p
    (regReach_cachePres reg s1 s2 hreach t p
      (regGet_cachePres reg fuel t s p s1 h).2)

/-- Witness for C3 at concrete inputs: a second lookup of type 0 in the
zero-member fixture returns the pointer of the first and the same state. -/
theorem registry_descriptor_singleton_witness :
    regGet regW0 1 0 regW0After = some (1, regW0After) :=
  registry_descriptor_singleton regW0 1 0 regInit regW0After regW0After 1
    (by decide) Relation.ReflTransGen.refl 0

/-- C2: resolving a native type whose single declared member is a strong
reference to the same type terminates (any fuel at least two suffices) and
produces an initialized descriptor with hasArray false whose single slot
holds the descriptor pointer of the type itself: the reentrant inner
lookup observes the cached pointer instead of recursing. -/
theorem registry_self_reference (reg : Nat → TypeDecl) (t off sz : Nat)
    (hsz : sz ≠ 0)
    (hreg : reg t = ⟨sz, none, [⟨t, HandleType.REFERENCE, off⟩]⟩) :
    ∀ k, regGet reg (k + 2) t regInit = some (1, selfRefState t off sz)
      ∧ findAssoc (selfRefState t off sz).heap 1 = some (selfRefDesc off sz)
      ∧ (selfRefDesc off sz).hasArray = false
      ∧ (selfRefDesc off sz).values.map SlotR.sd = [1] := by
  intro k
  refine ⟨?_, by simp [selfRefState, selfRefDesc, findAssoc], rfl, rfl⟩
  have hhit : findAssoc (regAlloc t regInit).cache t = some 1 := by
    simp [regAlloc, regInit, findAssoc]
  have h1 := regGet_cache_hit reg k t (regAlloc t regInit) 1 hhit
  simp only [regAlloc, regInit] at h1
  show regGet reg (k + 1 + 1) t regInit = _
  rw [regGet]
  rw [show findAssoc regInit.cache t = none from rfl]
  simp only [hreg, buildArraySlot, buildSlots, h1, mkSlotR, boxedPtr,
    selfRefState, selfRefDesc, regAlloc, regInit, emptySlotR, hsz]
  simp [hsz]

/-- Witness for C2 at concrete inputs: the self-referential fixture with
sizeof 8 and offset 16. -/
theorem registry_self_reference_witness :
    regGet regWS 2 0 regInit = some (1, selfRefState 0 16 8)
    ∧ findAssoc (selfRefState 0 16 8).heap 1 = some (selfRefDesc 16 8)
    ∧ (selfRefDesc 16 8).hasArray = false
    ∧ (selfRefDesc 16 8).values.map SlotR.sd = [1] :=
  registry_self_reference regWS 0 16 8 (by decide) rfl 0

/-- C9 evaluation: Newable::operator new multiplies the requested byte size
by sizeof(ChildClass) again, so a new-expression for one object of a class
of size 8 requests 64 bytes from GCHooks::allocate rather than 8; allocate
is still called exactly once and its pointer is returned, and operator
delete performs no deallocation. -/
theorem newable_allocation_size_bug :
    (Newable.newExpression (fun n => n) 8).2 = [64]
    ∧ (Newable.newExpression (fun n => n) 8).2 ≠ [8]
    ∧ (Newable.newExpression (fun n => n) 8).2.length = 1
    ∧ (Newable.newExpression (fun n => n) 8).1 = 64
    ∧ Newable.operatorDelete = [] := by
  refine ⟨rfl, by decide, rfl, rfl, rfl⟩

end Arw
